import Mathlib

/-!
Verification of the shape/layout algebra of `mlir/include/mlir/IR/BuiltinTypes.h`:
canonical strided layout computation, rank-reduction masks and verification,
stride extraction and layout canonicalization, and the copy-on-write shape
builders for ranked tensor and vector types.

Dimensions (int64 extents that are either a non-negative static size or the
dynamic sentinel `ShapedType::kDynamic`) are modelled as `Option Int`:
`some v` is a static size `v`, `none` is the dynamic sentinel.  The sentinel
participates only in equality / is-dynamic checks, never in arithmetic,
exactly as the header requires.
-/

namespace BuiltinTypes

/-- A dimension: static extent or the dynamic sentinel. -/
abbrev Dim := Option Int

/-- A canonical-stride entry: either a static integer stride or a fresh
symbolic placeholder `sᵢ` standing for a dynamic stride. -/
inductive StrideExpr where
  | const (n : Int) : StrideExpr
  | sym (k : Nat) : StrideExpr
deriving DecidableEq, Repr

/-- Decides (as `dynAfter sizes i`) whether some dimension strictly more minor than
position `i` (i.e. at an index `> i`) has dynamic size; such a dynamic factor
poisons the cumulative stride product at position `i`. -/
def dynAfter (sizes : List Dim) (i : Nat) : Bool :=
  (sizes.drop (i + 1)).any fun s => s.isNone

/-- Product of the static sizes strictly more minor than position `i`; this is
the canonical contiguous stride at `i` when no dynamic size occurs after `i`.
(A dynamic entry contributes `1` here, but the value is only used when
`dynAfter` is false, i.e. when every entry of the suffix is static.) -/
def suffixProd (sizes : List Dim) (i : Nat) : Int :=
  ((sizes.drop (i + 1)).map (fun s => s.getD 1)).prod

/-- Index of the symbolic placeholder used at poisoned position `i`: the
number of poisoned positions strictly more minor than `i`, so that symbols are
numbered `s0, s1, …` from the minor-most poisoned position outward (matching
the header's examples `memref<3x4x?>` ↦ `s1*d0 + s0*d1 + d2`). -/
def symIdx (sizes : List Dim) (i : Nat) : Nat :=
  ((Finset.range sizes.length).filter fun j => i < j ∧ dynAfter sizes j).card

/-- Modelled from the spec: the implementation of
`makeCanonicalStridedLayoutExpr` (declared at `BuiltinTypes.h:523`) is not
under `src/`.  Following §4.2 `canonicalStrides` and the header's doc comment:
dimensions are processed minor-to-major, the minor-most stride is `1`, the
offset is always `0`, each stride is the cumulative product of the more-minor
sizes, and once any size is dynamic every more-major stride becomes a fresh
independent symbolic placeholder.  Returns the strides (major-to-minor, one
per dimension) together with the offset. -/
def makeCanonicalStridedLayoutExpr (sizes : List Dim) : List StrideExpr × Int :=
  ((List.range sizes.length).map fun i =>
      if dynAfter sizes i then .sym (symIdx sizes i) else .const (suffixProd sizes i),
    0)

theorem strides_getElem (sizes : List Dim) (i : Nat) (h : i < sizes.length) :
    (makeCanonicalStridedLayoutExpr sizes).1[i]? =
      some (if dynAfter sizes i then .sym (symIdx sizes i)
            else .const (suffixProd sizes i)) := by
  simp [makeCanonicalStridedLayoutExpr, List.getElem?_map, List.getElem?_range, h]

theorem dynAfter_of_getElem (sizes : List Dim) (i j : Nat) (hij : i < j)
    (hj : sizes[j]? = some none) : dynAfter sizes i = true := by
  have hjn : j < sizes.length := by
    by_contra hn
    simp [List.getElem?_eq_none (le_of_not_lt hn)] at hj
  have hmem : (none : Dim) ∈ sizes.drop (i + 1) := by
    have h1 : (sizes.drop (i + 1))[j - (i + 1)]? = some none := by
      rw [List.getElem?_drop]
      have h2 : i + 1 + (j - (i + 1)) = j := by omega
      rw [h2]; exact hj
    exact List.getElem?_mem h1
  simp only [dynAfter, List.any_eq_true]
  exact ⟨none, hmem, rfl⟩

theorem symIdx_strict_anti (sizes : List Dim) (i i' : Nat) (hii : i < i')
    (hn : i' < sizes.length) (hd : dynAfter sizes i' = true) :
    symIdx sizes i' < symIdx sizes i := by
  apply Finset.card_lt_card
  constructor
  · intro j hj
    simp only [Finset.mem_filter, Finset.mem_range] at hj ⊢
    exact ⟨hj.1, lt_trans hii hj.2.1, hj.2.2⟩
  · intro hsub
    have : i' ∈ (Finset.range sizes.length).filter fun j => i < j ∧ dynAfter sizes j := by
      simp only [Finset.mem_filter, Finset.mem_range]
      exact ⟨hn, hii, hd⟩
    have := hsub this
    simp only [Finset.mem_filter, Finset.mem_range] at this
    exact absurd this.2.1 (lt_irrefl i')

/-- C1: `makeCanonicalStridedLayoutExpr` builds strides minor-to-major with
the minor-most stride equal to `1` and offset `0`; once any dimension's size is
dynamic, every stride of every more-major dimension is a symbolic placeholder,
and distinct symbolic stride positions carry distinct placeholders.  In
particular shape `[3,?,5]` yields strides `[s0, 5, 1]` with offset 0 and
`[3,4,?]` yields `[s1, s0, 1]`. -/
theorem canonicalStrides_spec (sizes : List Dim) :
    (makeCanonicalStridedLayoutExpr sizes).2 = 0 ∧
    (makeCanonicalStridedLayoutExpr sizes).1.length = sizes.length ∧
    (sizes ≠ [] →
      (makeCanonicalStridedLayoutExpr sizes).1[sizes.length - 1]? =
        some (.const 1)) ∧
    (∀ i j : Nat, i < j → sizes[j]? = some none →
      (makeCanonicalStridedLayoutExpr sizes).1[i]? =
        some (.sym (symIdx sizes i))) ∧
    (∀ i i' k k' : Nat, i < i' →
      (makeCanonicalStridedLayoutExpr sizes).1[i]? = some (.sym k) →
      (makeCanonicalStridedLayoutExpr sizes).1[i']? = some (.sym k') →
      k ≠ k') ∧
    makeCanonicalStridedLayoutExpr [some 3, none, some 5] =
      ([.sym 0, .const 5, .const 1], 0) ∧
    makeCanonicalStridedLayoutExpr [some 3, some 4, none] =
      ([.sym 1, .sym 0, .const 1], 0) := by
  refine ⟨rfl, by simp [makeCanonicalStridedLayoutExpr], ?_, ?_, ?_, by decide, by decide⟩
  · intro hne
    have hlen : 0 < sizes.length := List.length_pos.mpr hne
    rw [strides_getElem sizes (sizes.length - 1) (by omega)]
    have h1 : dynAfter sizes (sizes.length - 1) = false := by
      simp [dynAfter, List.drop_eq_nil_of_le (by omega : sizes.length ≤ sizes.length - 1 + 1)]
    have h2 : suffixProd sizes (sizes.length - 1) = 1 := by
      simp [suffixProd, List.drop_eq_nil_of_le (by omega : sizes.length ≤ sizes.length - 1 + 1)]
    rw [h1, h2]
    simp
  · intro i j hij hj
    have hjn : j < sizes.length := by
      by_contra hn
      simp [List.getElem?_eq_none (le_of_not_lt hn)] at hj
    rw [strides_getElem sizes i (by omega), dynAfter_of_getElem sizes i j hij hj]
    simp
  · intro i i' k k' hii hk hk'
    have hin : i < sizes.length := by
      by_contra hn
      rw [makeCanonicalStridedLayoutExpr] at hk
      simp [List.getElem?_eq_none, le_of_not_lt hn] at hk
    have hin' : i' < sizes.length := by
      by_contra hn
      rw [makeCanonicalStridedLayoutExpr] at hk'
      simp [List.getElem?_eq_none, le_of_not_lt hn] at hk'
    rw [strides_getElem sizes i hin] at hk
    rw [strides_getElem sizes i' hin'] at hk'
    by_cases hd : dynAfter sizes i = true
    · by_cases hd' : dynAfter sizes i' = true
      · rw [hd] at hk; rw [hd'] at hk'
        simp only [if_true, Option.some.injEq, StrideExpr.sym.injEq] at hk hk'
        subst hk; subst hk'
        exact Ne.symm (ne_of_lt (symIdx_strict_anti sizes i i' hii hin' hd'))
      · rw [eq_false_of_ne_true hd'] at hk'
        simp at hk'
    · rw [eq_false_of_ne_true hd] at hk
      simp at hk

/-- Witness for `canonicalStrides_spec`: its hypotheses discharged at the
concrete shape `[3,?,5]` and positions `i = 0`, `j = 1`. -/
theorem canonicalStrides_spec_witness :
    (makeCanonicalStridedLayoutExpr [some 3, none, some 5]).1[0]? =
      some (.sym (symIdx [some 3, none, some 5] 0)) :=
  (canonicalStrides_spec [some 3, none, some 5]).2.2.2.1 0 1 (by decide) (by decide)

/-- Remove from `l` the positions in `s`, keeping the remaining entries in
their original relative order (the projection a rank-reduction mask applies
to `originalShape` to obtain `reducedShape`). -/
def dropPositions (l : List Dim) (s : Finset Nat) : List Dim :=
  (l.enum.filter fun p => p.1 ∉ s).map Prod.snd

/-- A mask is valid for `(original, reduced)` iff every dropped position holds
the static size `1` exactly (a dynamic dimension is never eligible) and the
kept positions, in order, coincide with `reduced`. -/
def isValidMask (original reduced : List Dim) (s : Finset Nat) : Bool :=
  decide (∀ i ∈ s, original[i]? = some (some 1)) &&
    decide (dropPositions original s = reduced)

/-- Modelled from the spec: the implementation of `computeRankReductionMask`
(declared at `BuiltinTypes.h:385`) is not under `src/`.  Following §4.3: the
set of positions of `originalShape` dropped to obtain `reducedShape` — every
dropped position must hold static size `1` and the kept positions must match
`reducedShape` pairwise in order — or `none` when no such set exists.  The
spec leaves the tie-break between several valid sets open, mandating only a
deterministic choice; here the first valid set in the sublist enumeration of
the positions is taken. -/
def computeRankReductionMask (original reduced : List Dim) : Option (Finset Nat) :=
  ((List.range original.length).sublists.find? fun l =>
      isValidMask original reduced l.toFinset).map List.toFinset

theorem sort_mem_sublists_range (n : Nat) (s : Finset Nat)
    (h : ∀ i ∈ s, i < n) :
    s.sort (· ≤ ·) ∈ (List.range n).sublists := by
  rw [List.mem_sublists]
  apply List.sublist_of_subperm_of_sorted _ (Finset.sort_sorted _ s)
      (List.pairwise_le_range n)
  exact (Finset.sort_nodup _ s).subperm fun i hi =>
    List.mem_range.mpr (h i ((Finset.mem_sort _).mp hi))

/-- C2: `computeRankReductionMask` returns a set of dropped positions each
holding the static size `1` exactly (never a dynamic dimension) whose removal
from `originalShape` yields exactly `reducedShape` in order; it returns `none`
when no such set exists; and on original `[1,4,1,5]` and reduced `[4,5]` the
mask is `{0, 2}`. -/
theorem computeRankReductionMask_spec (original reduced : List Dim) :
    (∀ s : Finset Nat, computeRankReductionMask original reduced = some s →
      (∀ i ∈ s, original[i]? = some (some 1)) ∧ dropPositions original s = reduced) ∧
    (computeRankReductionMask original reduced = none →
      ∀ s : Finset Nat,
        ¬((∀ i ∈ s, original[i]? = some (some 1)) ∧
          dropPositions original s = reduced)) ∧
    computeRankReductionMask [some 1, some 4, some 1, some 5] [some 4, some 5] =
      some {0, 2} := by
  refine ⟨?_, ?_, by decide⟩
  · intro s hs
    obtain ⟨l, hl, hls⟩ := Option.map_eq_some'.mp hs
    have hv := List.find?_some hl
    rw [hls] at hv
    simp only [isValidMask, Bool.and_eq_true, decide_eq_true_eq] at hv
    exact hv
  · intro hnone s hcl
    have hfind := Option.map_eq_none'.mp hnone
    have hlt : ∀ i ∈ s, i < original.length := by
      intro i hi
      by_contra hn
      have := hcl.1 i hi
      simp [List.getElem?_eq_none (le_of_not_lt hn)] at this
    have hmem := sort_mem_sublists_range original.length s hlt
    have := List.find?_eq_none.mp hfind _ hmem
    rw [Finset.sort_toFinset] at this
    simp only [isValidMask, Bool.and_eq_true, decide_eq_true_eq] at this
    exact this ⟨hcl.1, hcl.2⟩

/-- Witness for `computeRankReductionMask_spec`: the soundness direction
applied to the concrete pair `([1,4,1,5], [4,5])` with its computed mask. -/
theorem computeRankReductionMask_spec_witness :
    (∀ i ∈ ({0, 2} : Finset Nat),
        ([some 1, some 4, some 1, some 5] : List Dim)[i]? = some (some 1)) ∧
      dropPositions [some 1, some 4, some 1, some 5] {0, 2} = [some 4, some 5] :=
  (computeRankReductionMask_spec [some 1, some 4, some 1, some 5]
      [some 4, some 5]).1 {0, 2} (by decide)

/-- The verifier error codes of `BuiltinTypes.h:391` for slice
insert/extract style operations. -/
inductive SliceVerificationResult where
  | Success
  | RankTooLarge
  | SizeMismatch
  | ElemTypeMismatch
  | MemSpaceMismatch
  | LayoutMismatch
deriving DecidableEq, Repr

/-- Memory space tag and strided layout of a buffer-like (memref) type. -/
structure BufferInfo where
  memSpace : Nat
  strides : List Dim
  offset : Int
deriving DecidableEq, Repr

/-- A shaped type: shape, opaque element type, and — for buffer-like types
only — a memory space plus strided layout. -/
structure ShapedTy where
  shape : List Dim
  elemType : Nat
  buffer : Option BufferInfo
deriving DecidableEq, Repr

/-- Modelled from the spec: the implementation of `isRankReducedType`
(declared at `BuiltinTypes.h:405`) is not under `src/`.  Following §4.3:
rank/shape check first (candidate rank exceeding the original rank, or the
absence of any valid reduction mask, yields `RankTooLarge`; a masked
element-wise size conflict yields `SizeMismatch`), then the element-type
check, then — for buffer-like pairs only — the memory-space check and the
layout check (the original's strides with the dropped dimensions projected
out must equal the candidate's layout); the first failing check wins. -/
def isRankReducedType (orig cand : ShapedTy) : SliceVerificationResult :=
  if cand.shape.length > orig.shape.length then .RankTooLarge
  else
    match computeRankReductionMask orig.shape cand.shape with
    | none => .RankTooLarge
    | some mask =>
      if dropPositions orig.shape mask ≠ cand.shape then .SizeMismatch
      else if orig.elemType ≠ cand.elemType then .ElemTypeMismatch
      else
        match orig.buffer, cand.buffer with
        | some bo, some bc =>
          if bo.memSpace ≠ bc.memSpace then .MemSpaceMismatch
          else if dropPositions bo.strides mask ≠ bc.strides ∨ bo.offset ≠ bc.offset then
            .LayoutMismatch
          else .Success
        | _, _ => .Success

/-- C3: `isRankReducedType` returns exactly one of the six codes, checks
rank/shape first, then element type, then (buffer-only) memory space, then
(buffer-only) layout, with the first failing check determining the result;
`RankTooLarge` is returned when the candidate rank exceeds the original rank
or no valid reduction mask exists; and original `[2,3]` against candidate
`[3,2]` is never `Success`, whatever the element types and buffer data. -/
theorem isRankReducedType_spec (orig cand : ShapedTy) :
    (isRankReducedType orig cand = .Success ∨
     isRankReducedType orig cand = .RankTooLarge ∨
     isRankReducedType orig cand = .SizeMismatch ∨
     isRankReducedType orig cand = .ElemTypeMismatch ∨
     isRankReducedType orig cand = .MemSpaceMismatch ∨
     isRankReducedType orig cand = .LayoutMismatch) ∧
    (cand.shape.length > orig.shape.length ∨
        computeRankReductionMask orig.shape cand.shape = none →
      isRankReducedType orig cand = .RankTooLarge) ∧
    (∀ mask : Finset Nat, ¬cand.shape.length > orig.shape.length →
      computeRankReductionMask orig.shape cand.shape = some mask →
      dropPositions orig.shape mask = cand.shape →
      orig.elemType ≠ cand.elemType →
      isRankReducedType orig cand = .ElemTypeMismatch) ∧
    (∀ mask : Finset Nat, ∀ bo bc : BufferInfo,
      ¬cand.shape.length > orig.shape.length →
      computeRankReductionMask orig.shape cand.shape = some mask →
      dropPositions orig.shape mask = cand.shape →
      orig.elemType = cand.elemType →
      orig.buffer = some bo → cand.buffer = some bc →
      bo.memSpace ≠ bc.memSpace →
      isRankReducedType orig cand = .MemSpaceMismatch) ∧
    (∀ mask : Finset Nat, ∀ bo bc : BufferInfo,
      ¬cand.shape.length > orig.shape.length →
      computeRankReductionMask orig.shape cand.shape = some mask →
      dropPositions orig.shape mask = cand.shape →
      orig.elemType = cand.elemType →
      orig.buffer = some bo → cand.buffer = some bc →
      bo.memSpace = bc.memSpace →
      (dropPositions bo.strides mask ≠ bc.strides ∨ bo.offset ≠ bc.offset) →
      isRankReducedType orig cand = .LayoutMismatch) ∧
    (∀ mask : Finset Nat, ¬cand.shape.length > orig.shape.length →
      computeRankReductionMask orig.shape cand.shape = some mask →
      dropPositions orig.shape mask = cand.shape →
      orig.elemType = cand.elemType →
      orig.buffer = none →
      isRankReducedType orig cand = .Success) ∧
    (∀ e e' : Nat, ∀ b b' : Option BufferInfo,
      isRankReducedType ⟨[some 2, some 3], e, b⟩ ⟨[some 3, some 2], e', b'⟩ ≠
        .Success) := by
  refine ⟨?_, ?_, ?_, ?_, ?_, ?_, ?_⟩
  · unfold isRankReducedType
    split
    · tauto
    · split
      · tauto
      · split
        · tauto
        · split
          · tauto
          · split
            · split
              · tauto
              · split
                · tauto
                · tauto
            · tauto
  · intro h
    unfold isRankReducedType
    rcases h with h | h
    · simp [h]
    · rcases Nat.lt_or_ge orig.shape.length cand.shape.length with hr | hr
      · simp [hr]
      · simp only [gt_iff_lt, Nat.not_lt.mpr hr, if_false, h]
  · intro mask hr hm hd he
    unfold isRankReducedType
    simp [hr, hm, hd, he]
  · intro mask bo bc hr hm hd he hbo hbc hms
    unfold isRankReducedType
    simp [hr, hm, hd, he, hbo, hbc, hms]
  · intro mask bo bc hr hm hd he hbo hbc hms hl
    unfold isRankReducedType
    simp only [gt_iff_lt, hr, if_false, hm, hd, ne_eq, not_true_eq_false, if_false,
      he, hbo, hbc, hms, not_false_eq_true]
    simp [hl]
  · intro mask hr hm hd he hbo
    unfold isRankReducedType
    simp [hr, hm, hd, he, hbo]
  · intro e e' b b'
    have hm : computeRankReductionMask [some 2, some 3] [some 3, some 2] = none := by
      decide
    unfold isRankReducedType
    simp [hm]

/-- Witness for `isRankReducedType_spec`: the `RankTooLarge` clause discharged
on the concrete pair (original `[2,3]`, candidate `[3,2]`), showing the result
is never `Success` there. -/
theorem isRankReducedType_spec_witness :
    isRankReducedType ⟨[some 2, some 3], 0, none⟩ ⟨[some 3, some 2], 7, none⟩ =
      .RankTooLarge :=
  (isRankReducedType_spec ⟨[some 2, some 3], 0, none⟩
      ⟨[some 3, some 2], 7, none⟩).2.1 (Or.inr (by decide))

/-- A memref layout: the default (identity) layout, an explicit strided
layout, or a generic layout not expressible as strides. -/
inductive MemRefLayout where
  | identity
  | strided (strides : List Dim) (offset : Int)
  | generic
deriving DecidableEq, Repr

/-- A (ranked) memref type: shape, opaque element type, layout. -/
structure MemRefTy where
  shape : List Dim
  elemType : Nat
  layout : MemRefLayout
deriving DecidableEq, Repr

/-- The numeric (static-or-dynamic) strides corresponding to the canonical
symbolic strides: a symbolic placeholder becomes the dynamic sentinel. -/
def canonicalStridesNum (shape : List Dim) : List Dim :=
  (makeCanonicalStridedLayoutExpr shape).1.map fun e =>
    match e with
    | .const n => some n
    | .sym _ => none

/-- The canonical contiguous strides of an all-static shape: suffix products,
minor-most stride `1`. -/
def contiguousStrides (shape : List Dim) : List Dim :=
  (List.range shape.length).map fun i => some (suffixProd shape i)

/-- Modelled from the spec: the implementation of `getStridesAndOffset`
(declared at `BuiltinTypes.h:495`) is not under `src/`.  Following §4.2
`stridesAndOffset`: the default (identity) layout delegates to the canonical
strides of the shape with offset `0`; an explicit strided layout returns its
fields verbatim; a layout that does not reduce to the linear strided form
fails with a distinguishable non-fatal outcome (`none`). -/
def getStridesAndOffset (t : MemRefTy) : Option (List Dim × Int) :=
  match t.layout with
  | .identity => some (canonicalStridesNum t.shape, 0)
  | .strided st off => some (st, off)
  | .generic => none

/-- Modelled from the spec: the implementation of `canonicalizeStridedLayout`
(declared at `BuiltinTypes.h:507`) is not under `src/`.  Following §4.2
`canonicalize`: if the extracted strides/offset exactly match the canonical
strides of the shape with offset `0`, the layout is replaced by the default
(identity) layout; otherwise the type is kept (with its layout simplified). -/
def canonicalizeStridedLayout (t : MemRefTy) : MemRefTy :=
  match getStridesAndOffset t with
  | some (st, off) =>
      if st = canonicalStridesNum t.shape ∧ off = 0 then
        { t with layout := .identity }
      else t
  | none => t

theorem canonicalStridesNum_all_static (shape : List Dim)
    (h : ∀ d ∈ shape, d ≠ none) :
    canonicalStridesNum shape = contiguousStrides shape := by
  unfold canonicalStridesNum contiguousStrides makeCanonicalStridedLayoutExpr
  rw [List.map_map]
  apply List.map_congr_left
  intro i _
  have hdyn : dynAfter shape i = false := by
    rw [dynAfter]
    rw [List.any_eq_false]
    intro d hd
    have : d ∈ shape := List.mem_of_mem_drop hd
    cases d with
    | none => exact absurd rfl (h none this)
    | some v => simp
  simp [hdyn]

/-- C4: For every memref whose shape is all-static and whose layout is
the default (identity) layout, `getStridesAndOffset` succeeds and returns
exactly the canonical contiguous strides of the shape with offset `0`, and
`canonicalizeStridedLayout` yields a type with the identity layout. -/
theorem stridesAndOffset_default_spec (shape : List Dim) (e : Nat)
    (h : ∀ d ∈ shape, d ≠ none) :
    getStridesAndOffset ⟨shape, e, .identity⟩ =
      some (contiguousStrides shape, 0) ∧
    (canonicalizeStridedLayout ⟨shape, e, .identity⟩).layout = .identity := by
  constructor
  · rw [getStridesAndOffset]
    rw [canonicalStridesNum_all_static shape h]
  · rw [canonicalizeStridedLayout, getStridesAndOffset]
    simp

/-- Witness for `stridesAndOffset_default_spec`: the all-static shape
`[3,4,5]` yields strides `[20, 5, 1]` and offset `0`, and canonicalization
keeps the identity layout. -/
theorem stridesAndOffset_default_spec_witness :
    getStridesAndOffset ⟨[some 3, some 4, some 5], 2, .identity⟩ =
      some ([some 20, some 5, some 1], 0) ∧
    (canonicalizeStridedLayout
        ⟨[some 3, some 4, some 5], 2, .identity⟩).layout = .identity := by
  have h := stridesAndOffset_default_spec [some 3, some 4, some 5] 2 (by decide)
  refine ⟨?_, h.2⟩
  rw [h.1]
  decide

/-- A tensor type: ranked (shape, element type, encoding) or unranked
(element type only).  The encoding is an opaque attribute; `0` stands for the
absent (null) encoding. -/
inductive CTensorTy where
  | ranked (shape : List Dim) (elemType : Nat) (encoding : Nat)
  | unranked (elemType : Nat)
deriving DecidableEq, Repr

def CTensorTy.hasRank : CTensorTy → Bool
  | .ranked _ _ _ => true
  | .unranked _ => false

def CTensorTy.elemTy : CTensorTy → Nat
  | .ranked _ e _ => e
  | .unranked e => e

def CTensorTy.shapeOf : CTensorTy → Option (List Dim)
  | .ranked s _ _ => some s
  | .unranked _ => none

/-- Modelled from the spec: the implementation of `TensorType::cloneWith`
(declared at `BuiltinTypes.h:97`) is not under `src/`.  Following §4.1: a new
ranked type when a shape is supplied (even if the receiver was unranked, then
with the absent encoding), unranked-ness preserved when no shape is supplied
(using the current shape if ranked); the element type is always replaced. -/
def CTensorTy.cloneWith : CTensorTy → Option (List Dim) → Nat → CTensorTy
  | .ranked _ _ enc, some s, e => .ranked s e enc
  | .ranked sh _ enc, none, e => .ranked sh e enc
  | .unranked _, some s, e => .ranked s e 0
  | .unranked _, none, e => .unranked e

/-- A base memref type: ranked (shape, element type, layout, memory space) or
unranked (element type, memory space). -/
inductive CMemRefTy where
  | ranked (shape : List Dim) (elemType : Nat) (layout : MemRefLayout)
      (memSpace : Nat)
  | unranked (elemType : Nat) (memSpace : Nat)
deriving DecidableEq, Repr

def CMemRefTy.hasRank : CMemRefTy → Bool
  | .ranked _ _ _ _ => true
  | .unranked _ _ => false

def CMemRefTy.elemTy : CMemRefTy → Nat
  | .ranked _ e _ _ => e
  | .unranked e _ => e

def CMemRefTy.shapeOf : CMemRefTy → Option (List Dim)
  | .ranked s _ _ _ => some s
  | .unranked _ _ => none

/-- Modelled from the spec: the implementation of `BaseMemRefType::cloneWith`
(declared at `BuiltinTypes.h:144`) is not under `src/`.  Following §4.1, as
for tensors; the memory space is retained, and a previously-unranked receiver
given a shape obtains the default (identity) layout. -/
def CMemRefTy.cloneWith : CMemRefTy → Option (List Dim) → Nat → CMemRefTy
  | .ranked _ _ lay ms, some s, e => .ranked s e lay ms
  | .ranked sh _ lay ms, none, e => .ranked sh e lay ms
  | .unranked _ ms, some s, e => .ranked s e .identity ms
  | .unranked _ ms, none, e => .unranked e ms

/-- C9: For tensor-like and buffer-like shaped types, `cloneWith`
produces a ranked type whenever a shape is supplied (even on an unranked
receiver), preserves the ranked-or-unranked status (and the current shape if
ranked) when no shape is supplied, and always replaces the element type. -/
theorem cloneWith_spec (t : CTensorTy) (m : CMemRefTy) (s : List Dim)
    (e : Nat) :
    ((t.cloneWith (some s) e).hasRank = true ∧
      (t.cloneWith (some s) e).shapeOf = some s) ∧
    ((t.cloneWith none e).hasRank = t.hasRank ∧
      (t.cloneWith none e).shapeOf = t.shapeOf) ∧
    (∀ os : Option (List Dim), (t.cloneWith os e).elemTy = e) ∧
    ((m.cloneWith (some s) e).hasRank = true ∧
      (m.cloneWith (some s) e).shapeOf = some s) ∧
    ((m.cloneWith none e).hasRank = m.hasRank ∧
      (m.cloneWith none e).shapeOf = m.shapeOf) ∧
    (∀ os : Option (List Dim), (m.cloneWith os e).elemTy = e) := by
  refine ⟨?_, ?_, ?_, ?_, ?_, ?_⟩
  · cases t <;> simp [CTensorTy.cloneWith, CTensorTy.hasRank, CTensorTy.shapeOf]
  · cases t <;> simp [CTensorTy.cloneWith, CTensorTy.hasRank, CTensorTy.shapeOf]
  · intro os
    cases t <;> cases os <;> simp [CTensorTy.cloneWith, CTensorTy.elemTy]
  · cases m <;> simp [CMemRefTy.cloneWith, CMemRefTy.hasRank, CMemRefTy.shapeOf]
  · cases m <;> simp [CMemRefTy.cloneWith, CMemRefTy.hasRank, CMemRefTy.shapeOf]
  · intro os
    cases m <;> cases os <;> simp [CMemRefTy.cloneWith, CMemRefTy.elemTy]

/-!
The shape builders of `BuiltinTypes.h` hold a non-owning `ArrayRef` view of a
caller-supplied shape buffer until the first structural edit, at which point
they copy the viewed shape into private owned storage (`SmallVector storage`)
and redirect the view into it.  Caller buffers are modelled as an explicit
memory `Mem` (a list of buffers); a builder's `shapeRef` is either
`some i` — a borrowed view of caller buffer `i` — or `none` — a view into the
builder's own `storage`.  Each structural edit returns the memory alongside
the new builder state, reflecting every write the C++ performs; that the
returned memory is unchanged is exactly the claim that the caller's buffers
are never written through.  Shape entries are raw `int64_t` values and are
kept as `Int`.
-/

/-- Caller-owned shape buffers a builder may borrow from. -/
abbrev Mem := List (List Int)

/-- The `RankedTensorType::Builder` (`BuiltinTypes.h:240`): a borrowed-or-owned
shape view, the copy-on-write `storage`, element type and encoding. -/
structure TBuilder where
  shapeRef : Option Nat
  storage : List Int
  elementType : Nat
  encoding : Nat
deriving DecidableEq, Repr

/-- The contents of the shape view the builder currently references. -/
def TBuilder.curShape (mem : Mem) (b : TBuilder) : List Int :=
  match b.shapeRef with
  | some i => mem.getD i []
  | none => b.storage

/-- The from-scratch constructor (`BuiltinTypes.h:248`): borrow the caller's
shape buffer `buf`, with empty owned storage. -/
def TBuilder.ofShapeBuffer (buf : Nat) (elementType encoding : Nat) : TBuilder :=
  ⟨some buf, [], elementType, encoding⟩

/-- The edit `RankedTensorType::Builder::dropDim` (`BuiltinTypes.h:267`): assert
`pos < shape.size()` (`none` models the fatal assertion failure); on first
edit (`storage.empty()`) copy the viewed shape into `storage`; erase at `pos`;
repoint the view into `storage`.  All writes target builder-owned state, so
the memory is returned unchanged. -/
def TBuilder.dropDim (mem : Mem) (b : TBuilder) (pos : Nat) :
    Option (Mem × TBuilder) :=
  let cur := b.curShape mem
  if pos < cur.length then
    let st := if b.storage = [] then cur else b.storage
    some (mem, { b with shapeRef := none, storage := st.eraseIdx pos })
  else none

/-- The edit `RankedTensorType::Builder::insertDim` (`BuiltinTypes.h:277`): assert
`pos <= shape.size()` (`pos = rank` appends); copy-on-write as for
`dropDim`; insert `val` at `pos`. -/
def TBuilder.insertDim (mem : Mem) (b : TBuilder) (val : Int) (pos : Nat) :
    Option (Mem × TBuilder) :=
  let cur := b.curShape mem
  if pos ≤ cur.length then
    let st := if b.storage = [] then cur else b.storage
    some (mem, { b with shapeRef := none, storage := st.insertIdx pos val })
  else none

/-- C5: The tensor builder's structural edits never write through the
caller's shape buffer: every edit leaves the memory of caller buffers
unchanged and leaves the builder viewing its private owned storage.  In
particular, a builder over the caller buffer `[2,3,4]` after `dropDim 1`
leaves that buffer's contents at `[2,3,4]` while the builder's current shape
is `[2,4]`. -/
theorem builder_cow_spec :
    (∀ (mem : Mem) (b : TBuilder) (pos : Nat) (r : Mem × TBuilder),
      TBuilder.dropDim mem b pos = some r →
        r.1 = mem ∧ r.2.shapeRef = none) ∧
    (∀ (mem : Mem) (b : TBuilder) (val : Int) (pos : Nat) (r : Mem × TBuilder),
      TBuilder.insertDim mem b val pos = some r →
        r.1 = mem ∧ r.2.shapeRef = none) ∧
    TBuilder.dropDim [[2, 3, 4]] (TBuilder.ofShapeBuffer 0 5 0) 1 =
      some ([[2, 3, 4]], ⟨none, [2, 4], 5, 0⟩) ∧
    TBuilder.curShape [[2, 3, 4]] ⟨none, [2, 4], 5, 0⟩ = [2, 4] := by
  refine ⟨?_, ?_, by decide, by decide⟩
  · intro mem b pos r h
    by_cases hc : pos < (b.curShape mem).length
    · simp only [TBuilder.dropDim, if_pos hc] at h
      rw [← Option.some.inj h]
      exact ⟨rfl, rfl⟩
    · simp only [TBuilder.dropDim, if_neg hc] at h
      exact absurd h (by simp)
  · intro mem b val pos r h
    by_cases hc : pos ≤ (b.curShape mem).length
    · simp only [TBuilder.insertDim, if_pos hc] at h
      rw [← Option.some.inj h]
      exact ⟨rfl, rfl⟩
    · simp only [TBuilder.insertDim, if_neg hc] at h
      exact absurd h (by simp)

/-- Witness for `builder_cow_spec`: its frame clause applied to the concrete
`dropDim 1` over the caller buffer `[2,3,4]`. -/
theorem builder_cow_spec_witness :
    ([[2, 3, 4]] : Mem) = [[2, 3, 4]] ∧
      (⟨none, [2, 4], 5, 0⟩ : TBuilder).shapeRef = none :=
  builder_cow_spec.1 [[2, 3, 4]] (TBuilder.ofShapeBuffer 0 5 0) 1
    ([[2, 3, 4]], ⟨none, [2, 4], 5, 0⟩) (by decide)

/-- The `VectorType::Builder` (`BuiltinTypes.h:304`), modelled at the level of the
values its views currently hold: `shape` and `scalableDims` are the contents
of the builder's current shape and per-dimension-flag views, which the claims
about this builder observe; the borrowed/owned storage split is modelled on
`TBuilder`.  `numScalableDims` is the trailing-scalable-dimension count. -/
structure VBuilder where
  shape : List Int
  elementType : Nat
  numScalableDims : Nat
  scalableDims : List Bool
deriving DecidableEq, Repr

/-- The from-scratch constructor (`BuiltinTypes.h:313`).  When the supplied
`scalableDims` list is empty, the C++ body assigns the freshly built
rank-many-`false` vector to the local *parameter* `scalableDims`, not to the
member `this->scalableDims`; the member keeps its default-initialized empty
state.  Only the nonempty case stores the caller's flags. -/
def VBuilder.ofScratch (shape : List Int) (elementType : Nat)
    (numScalableDims : Nat) (scalableDims : List Bool) : VBuilder :=
  { shape, elementType, numScalableDims,
    scalableDims := if scalableDims.isEmpty then [] else scalableDims }

/-- The edit `VectorType::Builder::setShape` (`BuiltinTypes.h:323`): the replacement
scalable flags are computed *before* `shape` is reassigned, so the
rank-many-`false` rebuild in the empty-flag case uses the length of the shape
held before the call. -/
def VBuilder.setShape (b : VBuilder) (newShape : List Int)
    (newNumScalableDims : Nat) (newIsScalableDim : List Bool) : VBuilder :=
  { b with
    numScalableDims := newNumScalableDims,
    scalableDims :=
      if newIsScalableDim.isEmpty then List.replicate b.shape.length false
      else newIsScalableDim,
    shape := newShape }

/-- The edit `VectorType::Builder::dropDim` (`BuiltinTypes.h:341`): assert
`pos < shape.size()` (`none` models the fatal assertion failure); decrement
`numScalableDims` when `pos >= shape.size() - numScalableDims`, where the
subtraction is C++ unsigned (wrapping) arithmetic, modelled with an explicit
`% 2 ^ 64`; then erase position `pos` from the shape and the flags.  (When the
guard fires, `pos < shape.size()` forces `numScalableDims ≥ 1`, so the
truncated `- 1` agrees with the unsigned decrement.) -/
def VBuilder.dropDim (b : VBuilder) (pos : Nat) : Option VBuilder :=
  if pos < b.shape.length then
    some { b with
      numScalableDims :=
        if pos ≥ (2 ^ 64 + b.shape.length - b.numScalableDims) % 2 ^ 64 then
          b.numScalableDims - 1
        else b.numScalableDims,
      shape := b.shape.eraseIdx pos,
      scalableDims := b.scalableDims.eraseIdx pos }
  else none

/-- The result of finalizing a vector builder: a bare scalar element type or
a vector type. -/
inductive VTy where
  | scalar (elemType : Nat)
  | vector (shape : List Int) (elemType : Nat) (numScalableDims : Nat)
      (scalableDims : List Bool)
deriving DecidableEq, Repr

/-- The finalization `VectorType::Builder::operator Type` (`BuiltinTypes.h:360`): an empty
shape yields the bare element type, otherwise `VectorType::get` is called on
the current fields. -/
def VBuilder.toVectorType (b : VBuilder) : VTy :=
  if b.shape.isEmpty then .scalar b.elementType
  else .vector b.shape b.elementType b.numScalableDims b.scalableDims

/-- C6: `VectorType::Builder::dropDim pos` decrements the
trailing-scalable-dimension count iff `pos` lies within the current scalable
suffix (`pos ≥ rank - numScalableDims`), and preserves the invariant
`numScalableDims ≤ rank`.  For shape `[2,3,4]` with `numScalableDims = 2`,
dropping position 0 leaves the count at 2 and dropping position 2 lowers it
to 1. -/
theorem vector_dropDim_scalable_spec (b : VBuilder) (pos : Nat) (b' : VBuilder)
    (hinv : b.numScalableDims ≤ b.shape.length)
    (hlen : b.shape.length < 2 ^ 64)
    (h : b.dropDim pos = some b') :
    (b'.numScalableDims =
      if pos ≥ b.shape.length - b.numScalableDims then b.numScalableDims - 1
      else b.numScalableDims) ∧
    (pos < b.shape.length - b.numScalableDims →
      b'.numScalableDims = b.numScalableDims) ∧
    b'.numScalableDims ≤ b'.shape.length ∧
    (VBuilder.dropDim ⟨[2, 3, 4], 0, 2, [false, true, true]⟩ 0).map
        VBuilder.numScalableDims = some 2 ∧
    (VBuilder.dropDim ⟨[2, 3, 4], 0, 2, [false, true, true]⟩ 2).map
        VBuilder.numScalableDims = some 1 := by
  by_cases hc : pos < b.shape.length
  · simp only [VBuilder.dropDim, if_pos hc] at h
    have hb' := Option.some.inj h
    have hmod : (2 ^ 64 + b.shape.length - b.numScalableDims) % 2 ^ 64 =
        b.shape.length - b.numScalableDims := by omega
    rw [hmod] at hb'
    refine ⟨?_, ?_, ?_, by decide, by decide⟩
    · rw [← hb']
    · intro hlt
      rw [← hb']
      simp [Nat.not_le.mpr hlt]
    · rw [← hb']
      simp only [ge_iff_le]
      have herase : (b.shape.eraseIdx pos).length = b.shape.length - 1 := by
        rw [List.length_eraseIdx]
        simp [hc]
      by_cases hg : b.shape.length - b.numScalableDims ≤ pos
      · simp only [if_pos hg, herase]
        omega
      · simp only [if_neg hg, herase]
        omega
  · simp only [VBuilder.dropDim, if_neg hc] at h
    exact absurd h (by simp)

/-- Witness for `vector_dropDim_scalable_spec`: discharged on the concrete
builder over `[2,3,4]` with `numScalableDims = 2`, dropping position 2. -/
theorem vector_dropDim_scalable_spec_witness :
    (⟨[2, 3], 0, 1, [false, true]⟩ : VBuilder).numScalableDims =
      if 2 ≥ ([2, 3, 4] : List Int).length - 2 then 2 - 1 else 2 :=
  (vector_dropDim_scalable_spec ⟨[2, 3, 4], 0, 2, [false, true, true]⟩ 2
      ⟨[2, 3], 0, 1, [false, true]⟩ (by decide) (by norm_num) (by decide)).1

/-- C7: Finalizing a vector builder yields the bare element type exactly
when the current shape is empty, and otherwise the vector type built from the
current shape, element type, and scalability fields; it never produces a
zero-dimensional vector. -/
theorem vector_finalize_spec (b : VBuilder) :
    (b.shape = [] → b.toVectorType = .scalar b.elementType) ∧
    (b.shape ≠ [] →
      b.toVectorType =
        .vector b.shape b.elementType b.numScalableDims b.scalableDims) ∧
    (∀ (sh : List Int) (e n : Nat) (f : List Bool),
      b.toVectorType = .vector sh e n f → sh ≠ []) := by
  refine ⟨?_, ?_, ?_⟩
  · intro hsh
    simp [VBuilder.toVectorType, hsh]
  · intro hsh
    simp [VBuilder.toVectorType, hsh]
  · intro sh e n f hv
    rw [VBuilder.toVectorType] at hv
    by_cases hsh : b.shape.isEmpty
    · rw [if_pos hsh] at hv
      exact absurd hv (by simp)
    · rw [if_neg hsh] at hv
      have h1 := (VTy.vector.inj hv).1
      intro hcl
      exact hsh (by rw [h1, hcl]; rfl)

/-- Witness for `vector_finalize_spec`: the empty-shape clause discharged on
a concrete emptied builder. -/
theorem vector_finalize_spec_witness :
    (⟨[], 9, 0, []⟩ : VBuilder).toVectorType = .scalar 9 :=
  (vector_finalize_spec ⟨[], 9, 0, []⟩).1 rfl

/-- C8: The structural edits' contracts: `dropDim pos` requires
`pos < rank` and `insertDim val pos` requires `pos ≤ rank` (`pos = rank`
appends); within the contract the assertion's failure branch is unreachable
(the call succeeds), outside it the call is a fatal assertion-style failure
(`none`), not a recoverable result. -/
theorem builder_contract_spec :
    (∀ (mem : Mem) (b : TBuilder) (pos : Nat),
      pos < (b.curShape mem).length → (TBuilder.dropDim mem b pos).isSome) ∧
    (∀ (mem : Mem) (b : TBuilder) (pos : Nat),
      (b.curShape mem).length ≤ pos → TBuilder.dropDim mem b pos = none) ∧
    (∀ (mem : Mem) (b : TBuilder) (val : Int) (pos : Nat),
      pos ≤ (b.curShape mem).length →
        (TBuilder.insertDim mem b val pos).isSome) ∧
    (∀ (mem : Mem) (b : TBuilder) (val : Int) (pos : Nat),
      (b.curShape mem).length < pos → TBuilder.insertDim mem b val pos = none) ∧
    (∀ (b : VBuilder) (pos : Nat),
      pos < b.shape.length → (VBuilder.dropDim b pos).isSome) ∧
    (∀ (b : VBuilder) (pos : Nat),
      b.shape.length ≤ pos → VBuilder.dropDim b pos = none) := by
  refine ⟨?_, ?_, ?_, ?_, ?_, ?_⟩
  · intro mem b pos hc
    simp [TBuilder.dropDim, if_pos hc]
  · intro mem b pos hc
    simp [TBuilder.dropDim, Nat.not_lt.mpr hc]
  · intro mem b val pos hc
    simp [TBuilder.insertDim, if_pos hc]
  · intro mem b val pos hc
    simp [TBuilder.insertDim, Nat.not_le.mpr hc]
  · intro b pos hc
    simp [VBuilder.dropDim, if_pos hc]
  · intro b pos hc
    simp [VBuilder.dropDim, Nat.not_lt.mpr hc]

/-- Witness for `builder_contract_spec`: the in-contract and out-of-contract
clauses discharged at concrete positions of a rank-2 builder. -/
theorem builder_contract_spec_witness :
    (TBuilder.dropDim [[5, 6]] (TBuilder.ofShapeBuffer 0 1 0) 1).isSome ∧
    TBuilder.dropDim [[5, 6]] (TBuilder.ofShapeBuffer 0 1 0) 2 = none :=
  ⟨builder_contract_spec.1 [[5, 6]] (TBuilder.ofShapeBuffer 0 1 0) 1 (by decide),
   builder_contract_spec.2.1 [[5, 6]] (TBuilder.ofShapeBuffer 0 1 0) 2 (by decide)⟩

/-- C10: `VectorType::Builder::setShape` with the scalability arguments at
their defaults sets `numScalableDims` to 0; with an empty new flag list it
rebuilds the flags with rank-many `false` entries sized by the shape held
*before* the call (the old rank), not the new shape's rank; and the
from-scratch constructor given an empty `scalableDims` argument leaves the
stored flags empty rather than materializing rank-many `false` flags. -/
theorem vector_setShape_spec (b : VBuilder) (newShape : List Int) (n : Nat)
    (flags : List Bool) :
    (b.setShape newShape 0 []).numScalableDims = 0 ∧
    (b.setShape newShape n []).scalableDims =
      List.replicate b.shape.length false ∧
    (b.setShape newShape n []).scalableDims.length = b.shape.length ∧
    (b.setShape newShape n []).shape = newShape ∧
    (flags ≠ [] → (b.setShape newShape n flags).scalableDims = flags) ∧
    (VBuilder.setShape ⟨[2, 3, 4], 0, 0, []⟩ [7] 0 []).scalableDims =
      [false, false, false] ∧
    (∀ (shape : List Int) (e m : Nat),
      (VBuilder.ofScratch shape e m []).scalableDims = []) := by
  refine ⟨rfl, rfl, by simp [VBuilder.setShape], rfl, ?_, by decide, ?_⟩
  · intro hne
    simp [VBuilder.setShape, List.isEmpty_iff, hne]
  · intro shape e m
    simp [VBuilder.ofScratch]

/-- Witness for `vector_setShape_spec`: the nonempty-flag clause discharged
at a concrete flag list. -/
theorem vector_setShape_spec_witness :
    (VBuilder.setShape ⟨[2, 3], 0, 0, []⟩ [4] 1 [true]).scalableDims =
      [true] :=
  (vector_setShape_spec ⟨[2, 3], 0, 0, []⟩ [4] 1 [true]).2.2.2.2.1
    (by decide)

end BuiltinTypes
